import Mathlib

/-!
# Verification of the cache-me in-memory cache engine

Shallow embedding of `src/base/src/in-memory-cache.ts` (the `InMemoryCache`
strategy) and of the memoization wrapper `cacheMe` from
`src/base/src/index.ts`, together with proofs of the specified properties.

Modelling conventions:
* Machine time (`new Date().getTime()`) is a `Nat` passed explicitly to each
  operation that reads the clock.
* An asynchronous zero-argument closure (`Closure<ReturnValue>`, i.e. the
  `fetchFn` passed to `persist`) is modelled by the outcome of invoking and
  awaiting it: `Except E V` (`.error` models a throw/rejection).  The closure
  stored inside an `Entry` for later refreshes is modelled by the value it
  produces when re-invoked (`Entry.fetchVal`); how many times it is invoked is
  reported separately by each operation as an explicit `Nat` count.
* The `cacheWhen` predicate of the configuration is modelled by the outcome
  function `V → Except E Bool` (`.error` models the predicate throwing).
* `NodeJS.Timeout` handles (`expirationTimeout`, `refreshInterval`) carry no
  cache state of their own: arming, refreshing and clearing timers are
  resource-management effects outside the state model, so an `Entry` keeps
  only its value, its closure and its `modified` timestamp.
* JavaScript truthiness is modelled where the source relies on it:
  `if (this.config.limit)` is false for an absent limit and for `limit = 0`,
  and `if (removeKey)` is false for an empty slot and for the empty string.
-/

namespace CacheMe

/-- Cache keys are the strings produced by the (out-of-scope) key hasher. -/
abbrev Key := String

/-- Configuration object of `InMemoryCache` (the `Config<ReturnValue>` type,
`in-memory-cache.ts` lines 4-12).  Absent optional fields are `none`. -/
structure Config (V E : Type) where
  ttlInMs : Option Nat := none
  resetTTLOnRead : Bool := false
  refreshIntervalInMs : Option Nat := none
  refreshAfterRead : Bool := false
  cooldownInMs : Option Nat := none
  limit : Option Nat := none
  cacheWhen : Option (V → Except E Bool) := none

/-- A cached record (the `Entry<ReturnValue>` type, lines 14-20).
`val` is the value captured by the current value accessor (`entry.value`),
`fetchVal` models the stored closure `entry.fetchFn` by the value it produces
when re-invoked, and `modified` is the last-write timestamp. -/
structure Entry (V : Type) where
  val : V
  fetchVal : V
  modified : Nat
  deriving DecidableEq, Repr

/-- The private state of an `InMemoryCache` instance: the key-to-entry map
`cache`, the eviction ring `cachedValuesOrdered` (a slot is `none` when it was
never written) and the ring's write cursor `persistCounter` (lines 24-34). -/
structure State (V : Type) where
  cache : Key → Option (Entry V)
  cachedValuesOrdered : Array (Option Key)
  persistCounter : Nat

/-- State of a freshly constructed `InMemoryCache` (constructor, lines 29-34):
empty map, `new Array(config.limit)` of unset slots, cursor 0. -/
def initState {E : Type} (V : Type) (cfg : Config V E) : State V :=
  { cache := fun _ => none
    cachedValuesOrdered := Array.mkArray (cfg.limit.getD 0) none
    persistCounter := 0 }

/-- The default configuration `inMemory()` (line 225): every option absent. -/
def defaultConfig (V E : Type) : Config V E := {}

/-- JavaScript truthiness of a ring slot: `if (removeKey)` is false when the
slot is unset (`undefined`) or holds the empty string. -/
def slotTruthy : Option Key → Bool
  | none => false
  | some s => s != ""

/-- JavaScript truthiness of `this.config.limit`: false when absent or 0. -/
def limitTruthy : Option Nat → Bool
  | none => false
  | some n => n != 0

/-- The `removeValueFromCache(key)` method (lines 136-146): delete the key's
entry from the map if present (timer clearing is outside the state model). -/
def removeValueFromCache {V : Type} (st : State V) (key : Key) : State V :=
  match st.cache key with
  | some _ =>
    { st with cache := fun k => if k = key then none else st.cache k }
  | none => st

/-- The ring slot currently under the write cursor, i.e. the expression
`this.cachedValuesOrdered[this.persistCounter]` (`none` models an unset
slot). -/
def ringSlot {V : Type} (st : State V) : Option Key :=
  st.cachedValuesOrdered.getD st.persistCounter none

/-- The `insertValueIntoCache(key, value, fetchFn)` method (lines 76-94):
store a fresh entry built by `toCacheEntry` (captured value, stored closure,
`modified = now`), then, when a truthy `limit` is configured, read the ring
slot under the write cursor, overwrite it with `key`, advance the cursor
modulo the limit, and remove the previous occupant's entry when the slot was
truthy. -/
def insertValueIntoCache {V E : Type} (cfg : Config V E) (st : State V)
    (key : Key) (value : V) (now : Nat) : State V :=
  let st1 : State V :=
    { st with cache := fun k =>
        if k = key then some ⟨value, value, now⟩ else st.cache k }
  if limitTruthy cfg.limit then
    let removeKey := ringSlot st1
    let st2 : State V :=
      { st1 with
        cachedValuesOrdered :=
          st1.cachedValuesOrdered.setD st1.persistCounter (some key)
        persistCounter := (st1.persistCounter + 1) % cfg.limit.getD 0 }
    if slotTruthy removeKey then
      removeValueFromCache st2 (removeKey.getD "")
    else st2
  else st1

/-- The `persist({key, fetchFn})` method (lines 54-74).  `fetchRes` is the
outcome of `await fetchFn()`.  Returns the outcome delivered to the caller
together with the resulting cache state: a fetch failure or a throwing
`cacheWhen` propagates and leaves the state untouched; a `cacheWhen`
resolving false returns the value without caching it; otherwise the value is
inserted via `insertValueIntoCache`. -/
def persist {V E : Type} (cfg : Config V E) (st : State V) (key : Key)
    (fetchRes : Except E V) (now : Nat) : Except E V × State V :=
  match fetchRes with
  | .error e => (.error e, st)
  | .ok value =>
    match cfg.cacheWhen with
    | some p =>
      match p value with
      | .error e => (.error e, st)
      | .ok false => (.ok value, st)
      | .ok true => (.ok value, insertValueIntoCache cfg st key value now)
    | none => (.ok value, insertValueIntoCache cfg st key value now)

/-- First half of `updateValueInCache(key, cooldown)` (lines 96-111), up to
the first suspension point: look the entry up (`none` when absent), abort
when `entry.modified + cooldown > now`, otherwise invoke the stored closure
and return the captured entry together with the fetched value. -/
def refreshCheck {V : Type} (st : State V) (key : Key)
    (cooldown now : Nat) : Option (Entry V × V) :=
  match st.cache key with
  | none => none
  | some entry =>
    if entry.modified + cooldown > now then none
    else some (entry, entry.fetchVal)

/-- Final step of `updateValueInCache` (lines 125-132): rebuild the captured
entry's value accessor around the fetched value, stamp `modified = now`, and
write the entry back under `key` with `cache.set` — without re-checking that
the key is still in the map. -/
def refreshCommit {V : Type} (st : State V) (key : Key) (captured : Entry V)
    (value : V) (now : Nat) : State V :=
  { st with cache := fun k =>
      if k = key then some { captured with val := value, modified := now }
      else st.cache k }

/-- The `updateValueInCache(key, cooldown)` method (lines 96-134), run
without interleaving: `refreshCheck`, then the `cacheWhen` gate (a predicate
resolving false, or throwing — which rejects the background task — aborts
without mutating the entry), then `refreshCommit`.  The second component
counts the invocations of the entry's stored closure (0 or 1). -/
def updateValueInCache {V E : Type} (cfg : Config V E) (st : State V)
    (key : Key) (cooldown now : Nat) : State V × Nat :=
  match refreshCheck st key cooldown now with
  | none => (st, 0)
  | some (entry, value) =>
    match cfg.cacheWhen with
    | some p =>
      match p value with
      | .ok true => (refreshCommit st key entry value now, 1)
      | .ok false => (st, 1)
      | .error _ => (st, 1)
    | none => (refreshCommit st key entry value now, 1)

/-- The `retrieve(key)` method (lines 36-52) together with the value accessor
it invokes on a hit (`getValueGetter`, lines 181-200): on a hit the accessor
first fires the background refresh `updateValueInCache(key, cooldownInMs)`
when `refreshAfterRead` is configured (the TTL-reset branch only touches a
timer), then returns its captured value; on a miss nothing happens.  Returns
the optional cached value, the resulting state, and the number of invocations
of the entry's stored closure. -/
def retrieve {V E : Type} (cfg : Config V E) (st : State V) (key : Key)
    (now : Nat) : Option V × State V × Nat :=
  match st.cache key with
  | none => (none, st, 0)
  | some entry =>
    if cfg.refreshAfterRead then
      let (st1, n) := updateValueInCache cfg st key (cfg.cooldownInMs.getD 0) now
      (some entry.val, st1, n)
    else (some entry.val, st, 0)

/-- One call of the memoized function built by `cacheMe` (`index.ts` lines
24-37) for an already-computed key: `retrieve`, return the hit, otherwise
`persist` with the underlying function's outcome `fnRes` (its invocation
adds 1 to the count). -/
def cachedCall {V E : Type} (cfg : Config V E) (st : State V) (key : Key)
    (fnRes : Except E V) (now : Nat) : Except E V × State V × Nat :=
  match retrieve cfg st key now with
  | (some v, st1, n) => (.ok v, st1, n)
  | (none, st1, n) =>
    let (res, st2) := persist cfg st1 key fnRes now
    (res, st2, n + 1)

/-! ## Helper lemmas -/

/-- A positive `refreshCheck` pins down the map entry and the fetched value. -/
lemma refreshCheck_eq_some {V : Type} {st : State V} {key : Key}
    {cooldown now : Nat} {e : Entry V} {v : V}
    (h : refreshCheck st key cooldown now = some (e, v)) :
    st.cache key = some e ∧ v = e.fetchVal ∧ ¬ e.modified + cooldown > now := by
  unfold refreshCheck at h
  cases hc : st.cache key with
  | none => simp [hc] at h
  | some entry =>
    simp only [hc] at h
    by_cases hcd : entry.modified + cooldown > now
    · simp [hcd] at h
    · simp [hcd] at h
      obtain ⟨h1, h2⟩ := h
      subst h1
      exact ⟨rfl, h2.symm, hcd⟩

/-! ## Concrete fixtures used by witness theorems -/

/-- A configuration whose `cacheWhen` always resolves false. -/
def cwFalse : Config Nat String := { cacheWhen := some fun _ => .ok false }

/-- A configuration whose `cacheWhen` always throws. -/
def cwThrow : Config Nat String := { cacheWhen := some fun _ => .error "boom" }

/-- A state holding the single entry `⟨1, 2, 0⟩` under key `"a"`. -/
def stOne : State Nat :=
  { cache := fun k => if k = "a" then some ⟨1, 2, 0⟩ else none
    cachedValuesOrdered := #[]
    persistCounter := 0 }

/-! ## Claim theorems -/

/-- C1: `persist` always hands the freshly fetched value back to its caller,
whatever the caching decision; and when `cacheWhen` resolves false it returns
that value while leaving the whole cache state (so in particular cache
membership) unchanged, creating no entry. -/
theorem persist_returns_value {V E : Type} (cfg : Config V E) (st : State V)
    (key : Key) (v : V) (now : Nat) :
    (cfg.cacheWhen = none →
      persist cfg st key (.ok v) now =
        (.ok v, insertValueIntoCache cfg st key v now)) ∧
    (∀ p b, cfg.cacheWhen = some p → p v = .ok b →
      (persist cfg st key (.ok v) now).1 = .ok v) ∧
    (∀ p, cfg.cacheWhen = some p → p v = .ok false →
      persist cfg st key (.ok v) now = (.ok v, st)) := by
  refine ⟨fun h => by simp [persist, h], fun p b hp hb => ?_, fun p hp hb => ?_⟩
  · cases b <;> simp [persist, hp, hb]
  · simp [persist, hp, hb]

/-- C1 witness: with `cacheWhen` constantly false, `persist` returns the
fetched value `7` and the state is exactly the one passed in. -/
theorem persist_returns_value_witness :
    cwFalse.cacheWhen = some (fun _ => .ok false) ∧
    persist cwFalse stOne "b" (.ok 7) 3 = (.ok 7, stOne) :=
  ⟨rfl, (persist_returns_value cwFalse stOne "b" 7 3).2.2 (fun _ => .ok false)
    rfl rfl⟩

/-- C2: the refresh operation `updateValueInCache key cooldown` at time `now`
does nothing for an absent key; for a present entry still in cooldown
(`modified + cooldown > now`) it aborts without invoking the stored closure
and without changing any state; otherwise it invokes the closure once and,
when `cacheWhen` is absent or resolves true, rebuilds the entry's value
accessor around the fetched value and stamps `modified = now`. -/
theorem updateValueInCache_spec {V E : Type} (cfg : Config V E) (st : State V)
    (key : Key) (cooldown now : Nat) :
    (st.cache key = none →
      updateValueInCache cfg st key cooldown now = (st, 0)) ∧
    (∀ e, st.cache key = some e → e.modified + cooldown > now →
      updateValueInCache cfg st key cooldown now = (st, 0)) ∧
    (∀ e, st.cache key = some e → ¬ e.modified + cooldown > now →
      (cfg.cacheWhen = none →
        updateValueInCache cfg st key cooldown now =
          (refreshCommit st key e e.fetchVal now, 1)) ∧
      (∀ p, cfg.cacheWhen = some p → p e.fetchVal = .ok true →
        updateValueInCache cfg st key cooldown now =
          (refreshCommit st key e e.fetchVal now, 1))) := by
  refine ⟨fun h => ?_, fun e he hcd => ?_, fun e he hcd => ⟨fun hw => ?_, fun p hp ht => ?_⟩⟩
  · simp [updateValueInCache, refreshCheck, h]
  · simp [updateValueInCache, refreshCheck, he, hcd]
  · simp [updateValueInCache, refreshCheck, he, hcd, hw]
  · simp [updateValueInCache, refreshCheck, he, hcd, hp, ht]

/-- C2 witness: on the entry `⟨1, 2, 0⟩` at key `"a"`, refresh at time 5 with
cooldown 10 is still in cooldown and does nothing, while with no `cacheWhen`
and cooldown 0 it fetches once and commits value 2 with `modified = 5`. -/
theorem updateValueInCache_spec_witness :
    stOne.cache "a" = some ⟨1, 2, 0⟩ ∧
    updateValueInCache (defaultConfig Nat String) stOne "a" 10 5 = (stOne, 0) ∧
    updateValueInCache (defaultConfig Nat String) stOne "a" 0 5 =
      (refreshCommit stOne "a" ⟨1, 2, 0⟩ 2 5, 1) :=
  ⟨rfl,
    (updateValueInCache_spec (defaultConfig Nat String) stOne "a" 10 5).2.1
      ⟨1, 2, 0⟩ rfl (by decide),
    ((updateValueInCache_spec (defaultConfig Nat String) stOne "a" 0 5).2.2
      ⟨1, 2, 0⟩ rfl (by decide)).1 rfl⟩

/-- C4: a fetch failure inside `persist` propagates to the caller unchanged,
and a throwing `cacheWhen` does the same; in both cases the returned state is
exactly the state before the call, so no entry, ring slot or cursor moved. -/
theorem persist_failure_propagates {V E : Type} (cfg : Config V E)
    (st : State V) (key : Key) (err : E) :
    (∀ now, persist cfg st key (.error err) now = (.error err, st)) ∧
    (∀ p v now, cfg.cacheWhen = some p → p v = .error err →
      persist cfg st key (.ok v) now = (.error err, st)) := by
  exact ⟨fun now => rfl, fun p v now hp hb => by simp [persist, hp, hb]⟩

/-- C4 witness: a rejected fetch and a throwing `cacheWhen` both surface
`"boom"` from `persist` and leave the state exactly `stOne`. -/
theorem persist_failure_propagates_witness :
    persist cwThrow stOne "b" (.error "boom") 3 = (.error "boom", stOne) ∧
    persist cwThrow stOne "b" (.ok 7) 3 = (.error "boom", stOne) :=
  ⟨(persist_failure_propagates cwThrow stOne "b" "boom").1 3,
    (persist_failure_propagates cwThrow stOne "b" "boom").2
      (fun _ => .error "boom") 7 3 rfl rfl⟩

/-- C5: refreshing an existing, out-of-cooldown entry whose `cacheWhen`
resolves false consumes one invocation of the stored closure but returns the
state completely unchanged: the entry keeps its value accessor and its
`modified` timestamp and stays in the map. -/
theorem refresh_cacheWhen_false_frame {V E : Type} (cfg : Config V E)
    (st : State V) (key : Key) (cooldown now : Nat) (e : Entry V)
    (p : V → Except E Bool) (he : st.cache key = some e)
    (hcd : ¬ e.modified + cooldown > now) (hp : cfg.cacheWhen = some p)
    (hfalse : p e.fetchVal = .ok false) :
    updateValueInCache cfg st key cooldown now = (st, 1) := by
  simp [updateValueInCache, refreshCheck, he, hcd, hp, hfalse]

/-- C5 witness: with `cacheWhen` constantly false, refreshing `stOne`'s entry
at time 5 invokes the closure once and leaves the state exactly `stOne`. -/
theorem refresh_cacheWhen_false_frame_witness :
    stOne.cache "a" = some ⟨1, 2, 0⟩ ∧
    updateValueInCache cwFalse stOne "a" 0 5 = (stOne, 1) :=
  ⟨rfl, refresh_cacheWhen_false_frame cwFalse stOne "a" 0 5 ⟨1, 2, 0⟩
    (fun _ => .ok false) rfl (by decide) rfl rfl⟩

/-- A refresh never inserts or removes a key: it either leaves the state
alone or writes an entry back under a key it found in the map. -/
lemma updateValueInCache_mem {V E : Type} (cfg : Config V E) (st : State V)
    (key : Key) (cooldown now : Nat) (k : Key) :
    (((updateValueInCache cfg st key cooldown now).1).cache k).isSome =
      (st.cache k).isSome := by
  cases hrc : refreshCheck st key cooldown now with
  | none => simp [updateValueInCache, hrc]
  | some ev =>
    obtain ⟨e, v⟩ := ev
    obtain ⟨he, -, -⟩ := refreshCheck_eq_some hrc
    cases hw : cfg.cacheWhen with
    | none =>
      by_cases hk : k = key
      · subst hk; simp [updateValueInCache, hrc, hw, refreshCommit, he]
      · simp [updateValueInCache, hrc, hw, refreshCommit, hk]
    | some p =>
      cases hp : p v with
      | error err => simp [updateValueInCache, hrc, hw, hp]
      | ok b =>
        cases b with
        | false => simp [updateValueInCache, hrc, hw, hp]
        | true =>
          by_cases hk : k = key
          · subst hk; simp [updateValueInCache, hrc, hw, hp, refreshCommit, he]
          · simp [updateValueInCache, hrc, hw, hp, refreshCommit, hk]

/-- A single refresh invokes the entry's stored closure at most once. -/
lemma updateValueInCache_count_le_one {V E : Type} (cfg : Config V E)
    (st : State V) (key : Key) (cooldown now : Nat) :
    (updateValueInCache cfg st key cooldown now).2 ≤ 1 := by
  cases hrc : refreshCheck st key cooldown now with
  | none => simp [updateValueInCache, hrc]
  | some ev =>
    obtain ⟨e, v⟩ := ev
    cases hw : cfg.cacheWhen with
    | none => simp [updateValueInCache, hrc, hw]
    | some p =>
      cases hp : p v with
      | error err => simp [updateValueInCache, hrc, hw, hp]
      | ok b => cases b <;> simp [updateValueInCache, hrc, hw, hp]

/-- Removal cannot make a key appear: a key absent before
`removeValueFromCache` is still absent afterwards. -/
lemma remove_cache_none {V : Type} (st : State V) (key k : Key)
    (h : st.cache k = none) :
    (removeValueFromCache st key).cache k = none := by
  unfold removeValueFromCache
  split
  · dsimp only
    by_cases hv : k = key
    · simp [hv]
    · simp [hv, h]
  · exact h

/-- Insertion writes only the given key: any other key absent before stays
absent afterwards (the eviction step can only remove entries). -/
lemma insert_cache_none {V E : Type} (cfg : Config V E) (st : State V)
    (key k : Key) (v : V) (now : Nat) (hk : k ≠ key)
    (h : st.cache k = none) :
    (insertValueIntoCache cfg st key v now).cache k = none := by
  have h1 : (if k = key then some (⟨v, v, now⟩ : Entry V) else st.cache k) =
      none := by simp [hk, h]
  simp only [insertValueIntoCache]
  split
  · split
    · exact remove_cache_none _ _ _ h1
    · exact h1
  · exact h1

/-- Persisting never creates an entry under a key other than the one given. -/
lemma persist_cache_none {V E : Type} (cfg : Config V E) (st : State V)
    (key k : Key) (fetchRes : Except E V) (now : Nat) (hk : k ≠ key)
    (h : st.cache k = none) :
    ((persist cfg st key fetchRes now).2).cache k = none := by
  cases fetchRes with
  | error e => simpa [persist] using h
  | ok value =>
    cases hw : cfg.cacheWhen with
    | none =>
      simpa [persist, hw] using insert_cache_none cfg st key k value now hk h
    | some p =>
      cases hp : p value with
      | error e => simpa [persist, hw, hp] using h
      | ok b =>
        cases b with
        | false => simpa [persist, hw, hp] using h
        | true =>
          simpa [persist, hw, hp] using
            insert_cache_none cfg st key k value now hk h

/-- A lookup hit with the read-triggered refresh disabled returns the
entry's captured value and does nothing else. -/
lemma retrieve_hit {V E : Type} (cfg : Config V E) (st : State V) (key : Key)
    (now : Nat) (e : Entry V) (he : st.cache key = some e)
    (hr : cfg.refreshAfterRead = false) :
    retrieve cfg st key now = (some e.val, st, 0) := by
  simp [retrieve, he, hr]

/-- A lookup miss returns `none` and does nothing. -/
lemma retrieve_miss {V E : Type} (cfg : Config V E) (st : State V) (key : Key)
    (now : Nat) (h : st.cache key = none) :
    retrieve cfg st key now = (none, st, 0) := by
  simp [retrieve, h]

/-- Configuration with refresh-after-read and a cooldown of `C` ms. -/
def refreshCfg (V E : Type) (C : Nat) : Config V E :=
  { refreshAfterRead := true, cooldownInMs := some C }

/-- The state of a freshly constructed default-configuration cache. -/
def emptySt : State Nat := initState Nat (defaultConfig Nat String)

/-- C6: under the default configuration a `retrieve` hit returns the stored
value, leaves the state untouched and invokes no closure — so repeated
retrievals keep returning the same value with zero invocations; and through
the `cacheMe` wrapper, the first call for an unseen key invokes the
underlying function exactly once while an immediate second call with the
same key invokes it zero additional times (whatever it would have produced)
and returns the same value. -/
theorem default_config_memoizes {V E : Type} :
    (∀ (st : State V) (key : Key) (e : Entry V) (now now2 : Nat),
      st.cache key = some e →
      retrieve (defaultConfig V E) st key now = (some e.val, st, 0) ∧
      retrieve (defaultConfig V E)
          ((retrieve (defaultConfig V E) st key now).2.1) key now2 =
        (some e.val, st, 0)) ∧
    (∀ (st : State V) (key : Key) (v : V) (fnRes2 : Except E V)
        (now now2 : Nat),
      st.cache key = none →
      cachedCall (defaultConfig V E) st key (.ok v) now =
        (.ok v, insertValueIntoCache (defaultConfig V E) st key v now, 1) ∧
      cachedCall (defaultConfig V E)
          (insertValueIntoCache (defaultConfig V E) st key v now) key fnRes2
          now2 =
        (.ok v, insertValueIntoCache (defaultConfig V E) st key v now, 0)) := by
  constructor
  · intro st key e now now2 he
    have h1 := retrieve_hit (defaultConfig V E) st key now e he rfl
    exact ⟨h1, by rw [h1]; exact retrieve_hit (defaultConfig V E) st key now2 e he rfl⟩
  · intro st key v fnRes2 now now2 hm
    have hhit : (insertValueIntoCache (defaultConfig V E) st key v now).cache
        key = some ⟨v, v, now⟩ := by
      simp [insertValueIntoCache, defaultConfig, limitTruthy]
    constructor
    · rw [cachedCall, retrieve_miss (defaultConfig V E) st key now hm]
      simp [persist, defaultConfig]
    · rw [cachedCall,
        retrieve_hit (defaultConfig V E) _ key now2 ⟨v, v, now⟩ hhit rfl]

/-- C6 witness: on `stOne` a hit at `"a"` returns value 1, state unchanged,
zero invocations; on the empty default cache the first wrapped call for
`"a"` computes 7 with one invocation and the second returns 7 with zero. -/
theorem default_config_memoizes_witness :
    stOne.cache "a" = some ⟨1, 2, 0⟩ ∧
    retrieve (defaultConfig Nat String) stOne "a" 4 = (some 1, stOne, 0) ∧
    cachedCall (defaultConfig Nat String) emptySt "a" (.ok 7) 4 =
      (.ok 7, insertValueIntoCache (defaultConfig Nat String) emptySt "a" 7 4,
        1) ∧
    cachedCall (defaultConfig Nat String)
        (insertValueIntoCache (defaultConfig Nat String) emptySt "a" 7 4) "a"
        (.ok 8) 5 =
      (.ok 7, insertValueIntoCache (defaultConfig Nat String) emptySt "a" 7 4,
        0) :=
  ⟨rfl,
    ((default_config_memoizes.1 stOne "a" ⟨1, 2, 0⟩ 4 4) rfl).1,
    (default_config_memoizes.2 emptySt "a" 7 (.ok 8) 4 5 rfl).1,
    (default_config_memoizes.2 emptySt "a" 7 (.ok 8) 4 5 rfl).2⟩

/-- C7: `retrieve` never changes cache membership — for every configuration,
state, looked-up key and probe key, the probe key is in the map after the
call exactly when it was in the map before, on hit and on miss alike. -/
theorem retrieve_preserves_membership {V E : Type} (cfg : Config V E)
    (st : State V) (key : Key) (now : Nat) (k : Key) :
    (((retrieve cfg st key now).2.1).cache k).isSome = (st.cache k).isSome := by
  unfold retrieve
  cases hc : st.cache key with
  | none => rfl
  | some entry =>
    by_cases hr : cfg.refreshAfterRead
    · simpa [hr] using updateValueInCache_mem cfg st key (cfg.cooldownInMs.getD 0) now k
    · simp [hr]

/-- C8: with `refreshAfterRead = true` and `cooldownInMs = C`, two hits on a
cached key at times `t1` and `t2 < t1 + C` trigger at most one invocation of
the entry's stored closure between them. -/
theorem cooldown_throttles_refresh {V E : Type} (C : Nat) (st : State V)
    (key : Key) (e : Entry V) (t1 t2 : Nat) (he : st.cache key = some e)
    (hlt : t2 < t1 + C) :
    (retrieve (refreshCfg V E C) st key t1).2.2 +
      (retrieve (refreshCfg V E C)
        ((retrieve (refreshCfg V E C) st key t1).2.1) key t2).2.2 ≤ 1 := by
  by_cases hcd : e.modified + C > t1
  · have h1 : retrieve (refreshCfg V E C) st key t1 = (some e.val, st, 0) := by
      simp [retrieve, refreshCfg, he, updateValueInCache, refreshCheck, hcd]
    rw [h1]
    have := updateValueInCache_count_le_one (refreshCfg V E C) st key C t2
    simp only [retrieve, refreshCfg, he]
    simp only [if_true]
    simpa [refreshCfg] using this
  · have h1 : retrieve (refreshCfg V E C) st key t1 =
        (some e.val, refreshCommit st key e e.fetchVal t1, 1) := by
      simp [retrieve, refreshCfg, he, updateValueInCache, refreshCheck, hcd]
    rw [h1]
    have h2 : (refreshCommit st key e e.fetchVal t1).cache key =
        some { e with val := e.fetchVal, modified := t1 } := by
      simp [refreshCommit]
    have hcd2 : ({ e with val := e.fetchVal, modified := t1 } :
        Entry V).modified + C > t2 := by
      simpa using hlt
    simp [retrieve, refreshCfg, h2, updateValueInCache, refreshCheck, hcd2]

/-- C8 witness: on `stOne` (entry modified at 0) with cooldown 10, reads at
times 100 and 105 together invoke the closure at most once. -/
theorem cooldown_throttles_refresh_witness :
    stOne.cache "a" = some ⟨1, 2, 0⟩ ∧ (105 : Nat) < 100 + 10 ∧
    (retrieve (refreshCfg Nat String 10) stOne "a" 100).2.2 +
      (retrieve (refreshCfg Nat String 10)
        ((retrieve (refreshCfg Nat String 10) stOne "a" 100).2.1) "a"
        105).2.2 ≤ 1 :=
  ⟨rfl, by decide,
    cooldown_throttles_refresh 10 stOne "a" ⟨1, 2, 0⟩ 100 105 rfl (by decide)⟩

/-- Removal never touches the eviction ring. -/
lemma removeValueFromCache_ring {V : Type} (st : State V) (key : Key) :
    (removeValueFromCache st key).cachedValuesOrdered =
      st.cachedValuesOrdered := by
  unfold removeValueFromCache; split <;> rfl

/-- Removal never touches the write cursor. -/
lemma removeValueFromCache_persistCounter {V : Type} (st : State V)
    (key : Key) :
    (removeValueFromCache st key).persistCounter = st.persistCounter := by
  unfold removeValueFromCache; split <;> rfl

/-- After `removeValueFromCache st key`, `key` is absent from the map. -/
lemma remove_cache_self {V : Type} (st : State V) (key : Key) :
    (removeValueFromCache st key).cache key = none := by
  rcases h : st.cache key with _ | e
  · simp [removeValueFromCache, h]
  · simp [removeValueFromCache, h]

/-- Updating the entry map leaves the ring slot under the cursor unchanged. -/
lemma ringSlot_cacheUpdate {V : Type} (st : State V)
    (f : Key → Option (Entry V)) :
    ringSlot ⟨f, st.cachedValuesOrdered, st.persistCounter⟩ = ringSlot st :=
  rfl

/-- Configuration with an entry limit of 2 and nothing else. -/
def limit2 : Config Nat String := { limit := some 2 }

/-- Freshly constructed cache with `limit = 2`. -/
def evSt0 : State Nat := initState Nat limit2

/-- After `persist` of key "1". -/
def evSt1 : State Nat := (persist limit2 evSt0 "1" (.ok 1) 0).2

/-- After keys "1", "2". -/
def evSt2 : State Nat := (persist limit2 evSt1 "2" (.ok 2) 0).2

/-- After keys "1", "2", "3". -/
def evSt3 : State Nat := (persist limit2 evSt2 "3" (.ok 3) 0).2

/-- After keys "1", "2", "3", "4". -/
def evSt4 : State Nat := (persist limit2 evSt3 "4" (.ok 4) 0).2

/-- After keys "1", "2", "3", "4", "5". -/
def evSt5 : State Nat := (persist limit2 evSt4 "5" (.ok 5) 0).2

/-- C3: with a limit `L` configured, every insertion reads the ring slot
under the write cursor, overwrites it with the new key, advances the cursor
modulo `L`, and removes the slot's previous occupant from the map if there
was one (otherwise it only adds the new entry); consequently with limit 2,
inserting keys "1".."5" in order leaves, after each of the insertions of
"2".."5", exactly the last two inserted keys in the cache — "1" is evicted
by "3", "2" by "4", and "3" by "5". -/
theorem ring_eviction_spec :
    (∀ (V E : Type) (cfg : Config V E) (L : Nat) (st : State V) (key : Key)
        (v : V) (now : Nat), cfg.limit = some L → L ≠ 0 →
      (insertValueIntoCache cfg st key v now).persistCounter =
          (st.persistCounter + 1) % L ∧
      (insertValueIntoCache cfg st key v now).cachedValuesOrdered =
          st.cachedValuesOrdered.setD st.persistCounter (some key) ∧
      (∀ k0, ringSlot st = some k0 → k0 ≠ "" →
        (insertValueIntoCache cfg st key v now).cache k0 = none) ∧
      (ringSlot st = none →
        ∀ k, (insertValueIntoCache cfg st key v now).cache k =
          if k = key then some ⟨v, v, now⟩ else st.cache k)) ∧
    (∀ k : Key,
      ((evSt2.cache k).isSome = true ↔ (k = "1" ∨ k = "2")) ∧
      ((evSt3.cache k).isSome = true ↔ (k = "2" ∨ k = "3")) ∧
      ((evSt4.cache k).isSome = true ↔ (k = "3" ∨ k = "4")) ∧
      ((evSt5.cache k).isSome = true ↔ (k = "4" ∨ k = "5"))) := by
  constructor
  · intro V E cfg L st key v now hL hL0
    have hlt2 : limitTruthy (some L) = true := by simp [limitTruthy, hL0]
    refine ⟨?_, ?_, ?_, ?_⟩
    · simp only [insertValueIntoCache, hL, hlt2, if_true, Option.getD_some]
      split
      · rw [removeValueFromCache_persistCounter]
      · rfl
    · simp only [insertValueIntoCache, hL, hlt2, if_true, Option.getD_some]
      split
      · rw [removeValueFromCache_ring]
      · rfl
    · intro k0 hs hk0
      simp only [insertValueIntoCache, hL, hlt2, if_true, ringSlot_cacheUpdate,
        hs]
      simp [slotTruthy, hk0, remove_cache_self]
    · intro hs k
      simp only [insertValueIntoCache, hL, hlt2, if_true, ringSlot_cacheUpdate,
        hs]
      simp [slotTruthy]
  · intro k
    by_cases h1 : k = "1"
    · subst h1; decide
    by_cases h2 : k = "2"
    · subst h2; decide
    by_cases h3 : k = "3"
    · subst h3; decide
    by_cases h4 : k = "4"
    · subst h4; decide
    by_cases h5 : k = "5"
    · subst h5; decide
    have e0 : evSt0.cache k = none := rfl
    have e1 : evSt1.cache k = none :=
      persist_cache_none limit2 evSt0 "1" k (.ok 1) 0 h1 e0
    have e2 : evSt2.cache k = none :=
      persist_cache_none limit2 evSt1 "2" k (.ok 2) 0 h2 e1
    have e3 : evSt3.cache k = none :=
      persist_cache_none limit2 evSt2 "3" k (.ok 3) 0 h3 e2
    have e4 : evSt4.cache k = none :=
      persist_cache_none limit2 evSt3 "4" k (.ok 4) 0 h4 e3
    have e5 : evSt5.cache k = none :=
      persist_cache_none limit2 evSt4 "5" k (.ok 5) 0 h5 e4
    simp [e2, e3, e4, e5, h1, h2, h3, h4, h5]

/-- C3 witness: inserting a fresh key into the two-entry state `evSt2`
(cursor 0, slot "1") advances the cursor to 1, writes the new key into slot
0, and removes the previous occupant "1" from the cache. -/
theorem ring_eviction_spec_witness :
    (2 : Nat) ≠ 0 ∧
    ringSlot evSt2 = some "1" ∧
    (insertValueIntoCache limit2 evSt2 "x" 9 4).persistCounter =
      (evSt2.persistCounter + 1) % 2 ∧
    (insertValueIntoCache limit2 evSt2 "x" 9 4).cache "1" = none :=
  ⟨by decide, by decide,
    (ring_eviction_spec.1 Nat String limit2 2 evSt2 "x" 9 4 rfl
      (by decide)).1,
    (ring_eviction_spec.1 Nat String limit2 2 evSt2 "x" 9 4 rfl
      (by decide)).2.2.1 "1" (by decide) (by decide)⟩

/-- C9: when the ring slot under the write cursor already holds the key `K`
being persisted, the eviction step picks `K` itself as the victim and
deletes the entry this very `persist` call just inserted: `persist` still
returns the fetched value, but `K` is absent from the cache afterwards. -/
theorem self_eviction {V E : Type} (cfg : Config V E) (L : Nat) (st : State V)
    (K : Key) (v : V) (now : Nat) (hW : cfg.cacheWhen = none)
    (hL : cfg.limit = some L) (hL0 : L ≠ 0) (hK : K ≠ "")
    (hslot : ringSlot st = some K) :
    (persist cfg st K (.ok v) now).1 = .ok v ∧
    ((persist cfg st K (.ok v) now).2).cache K = none := by
  have hlt2 : limitTruthy (some L) = true := by simp [limitTruthy, hL0]
  refine ⟨by simp [persist, hW], ?_⟩
  simp only [persist, hW, insertValueIntoCache, hL, hlt2, if_true,
    ringSlot_cacheUpdate, hslot]
  simp [slotTruthy, hK, remove_cache_self]

/-- C9 witness: in `evSt2` the cursor-0 slot holds "1"; persisting "1" again
returns the fresh value 9 yet leaves "1" absent from the cache. -/
theorem self_eviction_witness :
    ringSlot evSt2 = some "1" ∧
    (persist limit2 evSt2 "1" (.ok 9) 7).1 = .ok 9 ∧
    ((persist limit2 evSt2 "1" (.ok 9) 7).2).cache "1" = none :=
  ⟨by decide,
    (self_eviction limit2 2 evSt2 "1" 9 7 rfl rfl (by decide) (by decide)
      (by decide)).1,
    (self_eviction limit2 2 evSt2 "1" 9 7 rfl rfl (by decide) (by decide)
      (by decide)).2⟩

/-- C10: an execution in which a refresh that already passed its cooldown
and predicate checks (`refreshCheck` returned the captured entry and the
fetched value; no `cacheWhen` is configured) suspends, the key is removed
from the map in the meantime, and the refresh then runs its final write
(`refreshCommit`, the `cache.set` of `updateValueInCache`, which performs no
membership re-check): the removed key reappears in the cache without any
`persist` call. -/
theorem refresh_resurrects_deleted_key :
    refreshCheck stOne "a" 0 5 = some (⟨1, 2, 0⟩, 2) ∧
    (removeValueFromCache stOne "a").cache "a" = none ∧
    (refreshCommit (removeValueFromCache stOne "a") "a" ⟨1, 2, 0⟩ 2
        6).cache "a" = some ⟨2, 2, 6⟩ :=
  ⟨by decide, by decide, by decide⟩

end CacheMe
